import Mathlib

/-
Verification of the attribute-policy validation and command-dispatch engine
described by the specification of the generic-netlink example module
(src/examples/generic/netl.c).

The repository source contains only the example kernel module: the family
declaration (exmpl_gnl_family), the attribute policy (exmpl_genl_policy),
the echo-style handler (hello_world) and the init/exit lifecycle functions
(exmpl_gnl_init / exmpl_gnl_exit).  The codec, validator, registry,
dispatcher and reply builder that the module delegates to live outside the
repository, so those components are modelled from the spec; the functions
that are in the source are embedded directly.
-/

namespace Genl

/-- Modelled from the spec: attribute types (spec section 3).  NONE marks an
absent-always slot; STRING is a null-terminated byte sequence; U32 is an
unsigned 32-bit integer. -/
inductive AttrType where
  | none
  | string
  | u32
deriving DecidableEq, Repr

/-- Modelled from the spec: a typed attribute value.  String content is a
byte sequence (without its wire terminator); a U32 is a natural below 2^32
on the wire. -/
inductive TypedValue where
  | str (s : List Nat)
  | u32 (n : Nat)
deriving DecidableEq, Repr

/-- Modelled from the spec: a Policy maps attribute indices to declared
types, with a declared max_index (spec section 3); indices above max_index
or marked NONE have no entry. -/
structure Policy where
  maxIndex : Nat
  typeOf : Nat → AttrType

/-- Modelled from the spec: a decoded wire attribute {index, raw_bytes}
(spec section 3). -/
structure Attr where
  index : Nat
  raw : List Nat
deriving DecidableEq, Repr

/-- Modelled from the spec: the error taxonomy of section 7. -/
inductive ErrKind where
  | malformedStream
  | unknownFamily
  | unknownCommand
  | policyViolation
  | handlerError (kind : Nat)
  | duplicateFamily
  | familyBusy
  | attributeTooLarge
deriving DecidableEq, Repr

/-- Number of padding bytes needed to align a payload of n bytes to the
next 4-byte boundary (spec section 6 wire format). -/
def pad4 (n : Nat) : Nat := (4 - n % 4) % 4

/-- Modelled from the spec: the maximum representable attribute index and
the fixed maximum slot length, both bounded by the 2-byte wire fields of
the record header (spec sections 4.1 and 6). -/
def maxWireIndex : Nat := 65535

/-- Modelled from the spec: a single attribute's payload may not exceed
this fixed slot length (spec section 4.1, AttributeTooLarge). -/
def maxSlot : Nat := 65535

/-- Modelled from the spec: wire payload of one typed value (spec section
6): a STRING is its content plus a single trailing zero byte; a U32 is
exactly 4 bytes, little-endian here (byte order normalization is a
transport-layer concern per the spec). -/
def payloadOf : TypedValue → List Nat
  | .str s => s ++ [0]
  | .u32 n => [n % 256, n / 256 % 256, n / 65536 % 256, n / 16777216 % 256]

/-- Modelled from the spec: one encoded attribute record
[index: 2 bytes][length: 2 bytes][payload, padded to a 4-byte boundary]
(spec section 6). -/
def encodeAttr (i : Nat) (p : List Nat) : List Nat :=
  [i % 256, i / 256 % 256, p.length % 256, p.length / 256 % 256] ++
    p ++ List.replicate (pad4 p.length) 0

/-- Modelled from the spec: encode(attributes) writes records in order and
fails with AttributeTooLarge when a single payload exceeds the fixed
maximum slot length (spec section 4.1). -/
def encode : List (Nat × TypedValue) → Except ErrKind (List Nat)
  | [] => .ok []
  | (i, v) :: rest =>
    if maxSlot < (payloadOf v).length then .error .attributeTooLarge
    else
      match encode rest with
      | .ok bs => .ok (encodeAttr i (payloadOf v) ++ bs)
      | .error e => .error e

/-- Modelled from the spec: the decoding loop over the flat record stream,
with explicit fuel (one unit per consumed record header byte group) so the
recursion is structural.  A record whose length field claims more bytes
than remain, or a truncated header, is MalformedStream (spec section 4.1). -/
def decodeAux : Nat → List Nat → Except ErrKind (List Attr)
  | _, [] => .ok []
  | 0, _ :: _ => .error .malformedStream
  | fuel + 1, b0 :: b1 :: b2 :: b3 :: rest =>
    let len := b2 % 256 + 256 * (b3 % 256)
    if len ≤ rest.length then
      match decodeAux fuel (rest.drop (len + pad4 len)) with
      | .ok tl => .ok (⟨b0 % 256 + 256 * (b1 % 256), rest.take len⟩ :: tl)
      | .error e => .error e
    else .error .malformedStream
  | _ + 1, _ => .error .malformedStream

/-- Modelled from the spec: decode(buffer) performs a single linear pass
over the length-tagged records (spec section 4.1). -/
def decode (buf : List Nat) : Except ErrKind (List Attr) :=
  decodeAux buf.length buf

/-- Modelled from the spec: the string well-formedness check — the payload
ends with a zero terminator within its declared length, and the content
before the terminator has no embedded zero byte (spec sections 4.2 and 6). -/
def isWellFormedStr (raw : List Nat) : Bool :=
  raw.getLast? == some 0 && !raw.dropLast.contains 0

/-- Modelled from the spec: interpretation of a raw payload at a declared
type (spec section 4.2): NONE slots accept nothing; a STRING payload must
pass the well-formedness check; a U32 payload must be exactly 4 bytes. -/
def interp : AttrType → List Nat → Option TypedValue
  | AttrType.none, _ => Option.none
  | AttrType.string, raw =>
    if isWellFormedStr raw then some (.str raw.dropLast) else Option.none
  | AttrType.u32, raw =>
    match raw with
    | [a, b, c, d] =>
      some (.u32 (a % 256 + 256 * (b % 256) + 65536 * (c % 256) +
        16777216 * (d % 256)))
    | _ => Option.none

/-- Modelled from the spec: validate(decoded, policy) fails with
PolicyViolation when an attribute's index has no policy entry (above
max_index or marked NONE) or its payload cannot be interpreted at the
declared type; absence of an attribute is never checked here (spec
section 4.2). -/
def validate (attrs : List Attr) (p : Policy) :
    Except ErrKind (List (Nat × TypedValue)) :=
  match attrs with
  | [] => .ok []
  | a :: rest =>
    if p.maxIndex < a.index then .error .policyViolation
    else
      match interp (p.typeOf a.index) a.raw with
      | some v =>
        match validate rest p with
        | .ok tl => .ok ((a.index, v) :: tl)
        | .error e => .error e
      | Option.none => .error .policyViolation

/-- Modelled from the spec: the opaque token correlating a reply to its
originating request — peer identity plus sequence number (spec glossary). -/
structure OriginId where
  peer : Nat
  seq : Nat
deriving DecidableEq, Repr

/-- Modelled from the spec: the validated request handed to a handler
(spec section 3). -/
structure Request where
  origin : OriginId
  commandId : Nat
  attrs : List (Nat × TypedValue)

/-- Modelled from the spec: a Command binds an id to a handler returning
either reply attributes or a handler-declared error kind (spec section 3). -/
structure Command where
  cmd : Nat
  doit : Request → Except Nat (List (Nat × TypedValue))

/-- Modelled from the spec: a registered family record — version, policy
and command table (spec section 3; the name is the registry key). -/
structure FamilyRecord where
  version : Nat
  policy : Policy
  commands : List Command

/-- Modelled from the spec: the process-wide family registry, a table from
family name to family record (spec section 4.3). -/
abbrev Registry := List (String × FamilyRecord)

/-- Modelled from the spec: register(name, ...) fails with DuplicateFamily
when the name is already present, otherwise inserts (spec section 4.3). -/
def register (r : Registry) (name : String) (fam : FamilyRecord) :
    Except ErrKind Registry :=
  if r.any (fun e => e.1 == name) then .error .duplicateFamily
  else .ok ((name, fam) :: r)

/-- Modelled from the spec: unregister fails with UnknownFamily if the
name is absent, otherwise removes it and frees the name for
re-registration (spec section 4.3). -/
def unregister (r : Registry) (name : String) : Except ErrKind Registry :=
  if r.any (fun e => e.1 == name) then
    .ok (r.filter (fun e => !(e.1 == name)))
  else .error .unknownFamily

/-- Modelled from the spec: lookup by family name (spec section 4.3). -/
def lookupFamily (r : Registry) (name : String) : Option FamilyRecord :=
  (r.find? (fun e => e.1 == name)).map (fun e => e.2)

/-- Modelled from the spec: lookup of a command by id within a family
(spec section 4.4). -/
def lookupCommand (f : FamilyRecord) (c : Nat) : Option Command :=
  f.commands.find? (fun k => k.cmd == c)

/-- Modelled from the spec: a reply body is either the handler's attribute
set or an error kind carried as the designated error attribute (spec
sections 3 and 4.5). -/
inductive ReplyBody where
  | success (attrs : List (Nat × TypedValue))
  | failure (e : ErrKind)
deriving DecidableEq, Repr

/-- Modelled from the spec: a Reply carries the origin_id and command_id
copied from the request plus a body (spec section 3). -/
structure Reply where
  origin : OriginId
  commandId : Nat
  body : ReplyBody
deriving DecidableEq, Repr

/-- Modelled from the spec: build_success — assembles already-typed data
into a success reply (spec section 4.5). -/
def buildSuccessReply (o : OriginId) (c : Nat)
    (attrs : List (Nat × TypedValue)) : Reply :=
  ⟨o, c, .success attrs⟩

/-- Modelled from the spec: build_error — assembles an error reply
carrying the error kind (spec section 4.5). -/
def buildErrorReply (o : OriginId) (c : Nat) (e : ErrKind) : Reply :=
  ⟨o, c, .failure e⟩

/-- Modelled from the spec: the reserved per-family index used by the
designated error attribute of an error reply (spec section 4.5). -/
def errAttrIndex : Nat := 65535

/-- Modelled from the spec: numeric code carried by the designated error
attribute (spec section 4.5). -/
def errCode : ErrKind → Nat
  | .malformedStream => 1
  | .unknownFamily => 2
  | .unknownCommand => 3
  | .policyViolation => 4
  | .handlerError _ => 5
  | .duplicateFamily => 6
  | .familyBusy => 7
  | .attributeTooLarge => 8

/-- Modelled from the spec: the attribute set a reply contributes to the
codec — the handler attributes on success, the single designated error
attribute on failure (spec section 4.5). -/
def replyAttrs : ReplyBody → List (Nat × TypedValue)
  | .success attrs => attrs
  | .failure e => [(errAttrIndex, .u32 (errCode e))]

/-- Modelled from the spec: encoding of a finished reply back into wire
bytes; this is the Codec step that follows reply building (spec
sections 4.5 and 7). -/
def encodeReply (rep : Reply) : Except ErrKind (List Nat) :=
  encode (replyAttrs rep.body)

/-- Modelled from the spec: an inbound message after the transport has
extracted the header fields — family name, command id, origin id — with
the attribute records still in wire form (spec sections 4.4 and 6). -/
structure Msg where
  familyName : String
  commandId : Nat
  origin : OriginId
  attrBytes : List Nat

/-- Modelled from the spec: the dispatch state machine of section 4.4 —
decode, resolve family, resolve command, validate, invoke the handler,
and build a success or error reply; every reply copies the request's
origin_id and command_id. -/
def dispatch (r : Registry) (m : Msg) : Reply :=
  match decode m.attrBytes with
  | .error _ => buildErrorReply m.origin m.commandId .malformedStream
  | .ok raw =>
    match lookupFamily r m.familyName with
    | Option.none => buildErrorReply m.origin m.commandId .unknownFamily
    | some fam =>
      match lookupCommand fam m.commandId with
      | Option.none => buildErrorReply m.origin m.commandId .unknownCommand
      | some cmd =>
        match validate raw fam.policy with
        | .error e => buildErrorReply m.origin m.commandId e
        | .ok typed =>
          match cmd.doit ⟨m.origin, m.commandId, typed⟩ with
          | .ok outAttrs => buildSuccessReply m.origin m.commandId outAttrs
          | .error k =>
            buildErrorReply m.origin m.commandId (.handlerError k)

/-
The concrete echo scenario of the spec's section 8, property 6: family
"ECHO", max_index = 1, index 1 declared STRING, command 1 bound to an echo
handler that returns attribute {1: input string} and fails when the string
is absent.
-/

/-- Modelled from the spec: the echo family's policy — max_index 1,
index 1 declared STRING, every other index NONE. -/
def echoPolicy : Policy :=
  ⟨1, fun i => if i == 1 then AttrType.string else AttrType.none⟩

/-- Modelled from the spec: the echo handler — returns attribute
{1: input string}, and a handler error when the required string is
absent. -/
def echoHandler (req : Request) : Except Nat (List (Nat × TypedValue)) :=
  match req.attrs.find? (fun a => a.1 == 1) with
  | some (_, .str s) => .ok [(1, .str s)]
  | _ => .error 1

/-- Modelled from the spec: the echo family record. -/
def echoFamily : FamilyRecord := ⟨1, echoPolicy, [⟨1, echoHandler⟩]⟩

/-- Modelled from the spec: a registry holding only the echo family. -/
def echoRegistry : Registry := [("ECHO", echoFamily)]

/-- Wire bytes of the single attribute record {index 1: "hi"}: index 1,
length 3 (content "hi" plus the terminator), one padding byte. -/
def hiBytes : List Nat := [1, 0, 3, 0, 104, 105, 0, 0]

/-
Embedding of the functions that are present in the source file
src/examples/generic/netl.c.
-/

/-- Outcomes of the external calls hello_world makes, in source order:
whether info is non-NULL, whether genlmsg_new succeeds, whether
genlmsg_put_reply succeeds, and the return codes of nla_put_string and
genlmsg_reply. -/
structure HelloEnv where
  infoPresent : Bool
  allocOk : Bool
  putReplyOk : Bool
  nlaPutRc : Int
  replyRc : Int

/-- Observable result of one hello_world run: the returned code, whether a
reply was delivered (genlmsg_reply reached and returned 0), and whether
the error message was printed. -/
structure HelloResult where
  ret : Int
  replyDelivered : Bool
  logged : Bool
deriving DecidableEq, Repr

/-- Embedding of hello_world (netl.c lines 48-86): each failed call jumps
to the out label, which logs and returns 0; the success path returns 0
after genlmsg_reply succeeds. -/
def helloWorld (env : HelloEnv) : HelloResult :=
  if env.infoPresent = false then ⟨0, false, true⟩
  else if env.allocOk = false then ⟨0, false, true⟩
  else if env.putReplyOk = false then ⟨0, false, true⟩
  else if env.nlaPutRc ≠ 0 then ⟨0, false, true⟩
  else if env.replyRc ≠ 0 then ⟨0, false, true⟩
  else ⟨0, true, false⟩

/-- The attribute policy of the source module (netl.c lines 32-34):
EXMPL_MAX = 1 and index EXMPL_MSG = 1 declared as a null-terminated
string. -/
def exmplGenlPolicy : Policy :=
  ⟨1, fun i => if i == 1 then AttrType.string else AttrType.none⟩

/-- Family name of the source module (netl.c line 41). -/
def exmplGnlFamilyName : String := "EXMPL_GENL"

/-- The family record of the source module (netl.c lines 38-44 and 88-94):
version 1, the module policy, command EXMPL_MSG = 1 bound to the
hello_world echo command. -/
def exmplFamilyRecord : FamilyRecord := ⟨1, exmplGenlPolicy, []⟩

/-- Embedding of exmpl_gnl_init (netl.c lines 96-115) against the
registry model: register the family (failure returns 1 and leaves the
registry untouched); then register the command operations — modelled by
the opsOk oracle since that call is external — and on its failure
unregister the family and return -1; on success return 0. -/
def exmplGnlInit (r : Registry) (opsOk : Bool) : Int × Registry :=
  match register r exmplGnlFamilyName exmplFamilyRecord with
  | .error _ => (1, r)
  | .ok r' =>
    if opsOk = false then
      match unregister r' exmplGnlFamilyName with
      | .ok r'' => (-1, r'')
      | .error _ => (-1, r')
    else (0, r')

/-- The declared attribute type of a typed value. -/
def typeOfVal : TypedValue → AttrType
  | .str _ => AttrType.string
  | .u32 _ => AttrType.u32

/-- Modelled from the spec: a value is in range for the wire when a string
fits the slot (content plus terminator) and has no embedded zero byte, and
a U32 is below 2^32 (spec sections 4.1 and 6). -/
def inRange : TypedValue → Bool
  | .str s => decide (s.length + 1 ≤ maxSlot) && !s.contains 0
  | .u32 n => decide (n < 4294967296)

/-- A reply whose single attribute payload exceeds the fixed maximum slot
length, so its encoding fails with AttributeTooLarge. -/
def oversizedReply : Reply :=
  ⟨⟨7, 42⟩, 1, .success [(1, .str (List.replicate 70000 97))]⟩

/-- A policy with max_index 2 (index 1 STRING, index 2 U32), used for the
unknown-index rejection scenario of the spec's section 8, property 3. -/
def twoSlotPolicy : Policy :=
  ⟨2, fun i =>
    if i == 1 then AttrType.string
    else if i == 2 then AttrType.u32
    else AttrType.none⟩

/-
Helper lemmas shared by the claim theorems.
-/

/-- validate only ever fails with PolicyViolation. -/
theorem validate_err_pv (attrs : List Attr) (p : Policy) (e : ErrKind)
    (h : validate attrs p = .error e) : e = .policyViolation := by
  induction attrs with
  | nil => simp [validate] at h
  | cons a rest ih =>
    simp only [validate] at h
    split at h
    · cases h; rfl
    · split at h
      · split at h
        · simp at h
        · rename_i e2 hrec
          cases h
          exact ih hrec
      · cases h; rfl

/-- validate fails exactly when some present attribute has an index above
max_index or a payload that the declared type cannot interpret. -/
theorem validate_err_iff (attrs : List Attr) (p : Policy) :
    (∃ e, validate attrs p = .error e) ↔
      ∃ a ∈ attrs, (p.maxIndex < a.index ∨
        interp (p.typeOf a.index) a.raw = Option.none) := by
  induction attrs with
  | nil => simp [validate]
  | cons a rest ih =>
    simp only [validate]
    by_cases h : p.maxIndex < a.index
    · simp only [if_pos h]
      constructor
      · intro _
        exact ⟨a, List.mem_cons_self a rest, Or.inl h⟩
      · intro _
        exact ⟨.policyViolation, rfl⟩
    · simp only [if_neg h]
      cases hi : interp (p.typeOf a.index) a.raw with
      | none =>
        constructor
        · intro _
          exact ⟨a, List.mem_cons_self a rest, Or.inr hi⟩
        · intro _
          exact ⟨.policyViolation, rfl⟩
      | some v =>
        cases hv : validate rest p with
        | ok tl =>
          simp only [List.mem_cons]
          constructor
          · rintro ⟨e, he⟩
            simp at he
          · rintro ⟨b, hb | hb, hbad⟩
            · subst hb
              rcases hbad with hbad | hbad
              · exact absurd hbad h
              · rw [hbad] at hi; cases hi
            · have := ih.mpr ⟨b, hb, hbad⟩
              rcases this with ⟨e, he⟩
              rw [he] at hv; cases hv
        | error e =>
          simp only [List.mem_cons]
          constructor
          · intro _
            rcases ih.mp ⟨e, hv⟩ with ⟨b, hb, hbad⟩
            exact ⟨b, Or.inr hb, hbad⟩
          · intro _
            exact ⟨e, rfl⟩

/-- encode only ever fails with AttributeTooLarge. -/
theorem encode_err_atl (attrs : List (Nat × TypedValue)) (e : ErrKind)
    (h : encode attrs = .error e) : e = .attributeTooLarge := by
  induction attrs with
  | nil => simp [encode] at h
  | cons av rest ih =>
    obtain ⟨i, v⟩ := av
    simp only [encode] at h
    split at h
    · cases h; rfl
    · split at h
      · simp at h
      · rename_i e2 hrec
        cases h
        exact ih hrec

/-- After filtering a name out of a registry, no entry with that name
remains. -/
theorem any_filter_self (l : Registry) (name : String) :
    (l.filter (fun e => !(e.1 == name))).any (fun e => e.1 == name)
      = false := by
  induction l with
  | nil => simp
  | cons x l ih =>
    cases h : (x.1 == name) <;> simp [List.filter_cons, h, ih]

/-- After filtering a name out of a registry, lookup by that name finds
nothing. -/
theorem find_filter_self (l : Registry) (name : String) :
    (l.filter (fun e => !(e.1 == name))).find? (fun e => e.1 == name)
      = Option.none := by
  induction l with
  | nil => simp
  | cons x l ih =>
    cases h : (x.1 == name) <;> simp [List.filter_cons, List.find?, h, ih]

/-- Lookup finds nothing exactly when no entry bears the name. -/
theorem lookup_none_iff (l : Registry) (n : String) :
    lookupFamily l n = Option.none ↔
      l.any (fun e => e.1 == n) = false := by
  induction l with
  | nil => simp [lookupFamily]
  | cons x l ih =>
    cases h : (x.1 == n) with
    | false =>
      simp only [lookupFamily, List.find?, h, List.any_cons, Bool.false_or]
      exact ih
    | true =>
      simp [lookupFamily, List.find?, h, List.any_cons]

/-- A successful register means the name was absent and the new record
was prepended. -/
theorem register_ok_shape (r r₂ : Registry) (name : String)
    (f : FamilyRecord) (h : register r name f = .ok r₂) :
    r₂ = (name, f) :: r ∧
      r.any (fun e => e.1 == name) = false := by
  simp only [register] at h
  split at h
  · simp at h
  · rename_i hc
    cases h
    exact ⟨rfl, Bool.eq_false_iff.mpr hc⟩

/-- Every reply dispatch produces carries the message's origin id and
command id. -/
theorem dispatch_shape (r : Registry) (m : Msg) :
    ∃ b, dispatch r m = ⟨m.origin, m.commandId, b⟩ := by
  unfold dispatch
  repeat' split
  all_goals exact ⟨_, rfl⟩

/-- With any nonzero fuel, one encoded record decodes back to its index
and payload, consuming the whole record. -/
theorem decodeAux_single (fuel : Nat) (i : Nat) (p : List Nat)
    (hi : i ≤ 65535) (hp : p.length ≤ 65535) :
    decodeAux (fuel + 1) (encodeAttr i p) = .ok [⟨i, p⟩] := by
  show decodeAux (fuel + 1)
    (i % 256 :: i / 256 % 256 :: p.length % 256 :: p.length / 256 % 256 ::
      (p ++ List.replicate (pad4 p.length) 0)) = .ok [⟨i, p⟩]
  simp only [decodeAux]
  have hlen : p.length % 256 % 256 + 256 * (p.length / 256 % 256 % 256)
      = p.length := by omega
  have hidx : i % 256 % 256 + 256 * (i / 256 % 256 % 256) = i := by omega
  rw [hlen]
  have hle : p.length ≤ (p ++ List.replicate (pad4 p.length) 0).length := by
    simp
  rw [if_pos hle]
  have hdrop : (p ++ List.replicate (pad4 p.length) 0).drop
      (p.length + pad4 p.length) = [] := by
    apply List.drop_eq_nil_of_le
    simp
  have htake : (p ++ List.replicate (pad4 p.length) 0).take p.length = p :=
    List.take_left p _
  rw [hdrop, htake]
  have hnil : decodeAux fuel ([] : List Nat) = .ok [] := by
    cases fuel <;> rfl
  rw [hnil, hidx]

/-- Decoding one encoded record yields exactly that attribute. -/
theorem decode_encodeAttr (i : Nat) (p : List Nat)
    (hi : i ≤ 65535) (hp : p.length ≤ 65535) :
    decode (encodeAttr i p) = .ok [⟨i, p⟩] := by
  have hlen : (encodeAttr i p).length
      = (p ++ List.replicate (pad4 p.length) 0).length + 3 + 1 := by
    simp [encodeAttr]
  unfold decode
  rw [hlen]
  exact decodeAux_single _ i p hi hp

/-- Encoding a single in-slot attribute produces its record. -/
theorem encode_single (i : Nat) (v : TypedValue)
    (h : (payloadOf v).length ≤ maxSlot) :
    encode [(i, v)] = .ok (encodeAttr i (payloadOf v)) := by
  simp only [encode]
  rw [if_neg (by omega)]
  simp

/-- A 4-byte little-endian payload interprets back to its U32 value. -/
theorem interp_payload_u32 (n : Nat) (h : n < 4294967296) :
    interp AttrType.u32 (payloadOf (.u32 n)) = some (.u32 n) := by
  simp only [interp, payloadOf, Option.some.injEq, TypedValue.u32.injEq]
  omega

/-- A terminated string payload with no embedded zero interprets back to
its content. -/
theorem interp_payload_str (s : List Nat) (h0 : (0 : Nat) ∉ s) :
    interp AttrType.string (payloadOf (.str s)) = some (.str s) := by
  have hwf : isWellFormedStr (s ++ [0]) = true := by
    simp [isWellFormedStr, List.getLast?_concat, List.dropLast_concat]
    exact h0
  simp [interp, payloadOf, hwf, List.dropLast_concat]

/-- Every attribute produced by the decode loop has an index within the
2-byte wire field's range. -/
theorem decodeAux_index_le (fuel : Nat) :
    ∀ (buf : List Nat) (attrs : List Attr),
      decodeAux fuel buf = .ok attrs → ∀ a ∈ attrs, a.index ≤ 65535 := by
  induction fuel with
  | zero =>
    intro buf attrs h a ha
    cases buf with
    | nil =>
      simp only [decodeAux] at h
      cases h
      simp at ha
    | cons b rest => simp [decodeAux] at h
  | succ fuel ih =>
    intro buf attrs h a ha
    match buf with
    | [] =>
      simp only [decodeAux] at h
      cases h
      simp at ha
    | [b0] => simp [decodeAux] at h
    | [b0, b1] => simp [decodeAux] at h
    | [b0, b1, b2] => simp [decodeAux] at h
    | b0 :: b1 :: b2 :: b3 :: rest =>
      simp only [decodeAux] at h
      split at h
      · split at h
        · rename_i tl hrec
          cases h
          rcases List.mem_cons.mp ha with hh | ht
          · subst hh
            show b0 % 256 + 256 * (b1 % 256) ≤ 65535
            omega
          · exact ih _ tl hrec a ht
        · simp at h
      · simp at h

/-- A record whose length field claims more bytes than remain after its
header makes decode fail with MalformedStream. -/
theorem decode_overrun (b0 b1 b2 b3 : Nat) (rest : List Nat)
    (h : rest.length < b2 % 256 + 256 * (b3 % 256)) :
    decode (b0 :: b1 :: b2 :: b3 :: rest) = .error .malformedStream := by
  show decodeAux (rest.length + 3 + 1) _ = _
  simp only [decodeAux]
  rw [if_neg (by omega)]

/-- Claim C1: in the concrete echo scenario (family with max_index 1,
index 1 STRING, command 1 bound to the echo handler), dispatching command
1 with attribute {1: "hi"} yields a success reply whose attribute set is
exactly {1: "hi"} with the request's origin_id, and dispatching command 1
with an empty attribute set yields a HandlerError reply with the request's
origin_id. -/
theorem claim_C1 (o : OriginId) :
    dispatch echoRegistry ⟨"ECHO", 1, o, hiBytes⟩
      = ⟨o, 1, .success [(1, .str [104, 105])]⟩
  ∧ dispatch echoRegistry ⟨"ECHO", 1, o, []⟩
      = ⟨o, 1, .failure (.handlerError 1)⟩ :=
  ⟨rfl, rfl⟩

/-- Claim C2: every dispatched request, on the success path and on every
error path, produces a reply carrying the request's origin_id and
command_id unchanged. -/
theorem claim_C2 (r : Registry) (m : Msg) :
    (dispatch r m).origin = m.origin ∧
      (dispatch r m).commandId = m.commandId := by
  obtain ⟨b, hb⟩ := dispatch_shape r m
  rw [hb]
  exact ⟨rfl, rfl⟩

/-- Claim C3: each per-message error — MalformedStream, UnknownCommand,
PolicyViolation, HandlerError — arising while processing one inbound
message is converted into an error reply addressed to the originating
peer, and dispatch always terminates with exactly one reply, so no
per-message error is fatal and the worst case for one bad message is one
error reply. -/
theorem claim_C3 (r : Registry) (m : Msg) :
    ((∃ e, decode m.attrBytes = .error e) →
      dispatch r m = buildErrorReply m.origin m.commandId .malformedStream)
  ∧ (∀ raw fam, decode m.attrBytes = .ok raw →
      lookupFamily r m.familyName = some fam →
      lookupCommand fam m.commandId = Option.none →
      dispatch r m = buildErrorReply m.origin m.commandId .unknownCommand)
  ∧ (∀ raw fam cmd, decode m.attrBytes = .ok raw →
      lookupFamily r m.familyName = some fam →
      lookupCommand fam m.commandId = some cmd →
      validate raw fam.policy = .error .policyViolation →
      dispatch r m = buildErrorReply m.origin m.commandId .policyViolation)
  ∧ (∀ raw fam cmd typed k, decode m.attrBytes = .ok raw →
      lookupFamily r m.familyName = some fam →
      lookupCommand fam m.commandId = some cmd →
      validate raw fam.policy = .ok typed →
      cmd.doit ⟨m.origin, m.commandId, typed⟩ = .error k →
      dispatch r m = buildErrorReply m.origin m.commandId (.handlerError k))
  ∧ (∃ b, dispatch r m = ⟨m.origin, m.commandId, b⟩) := by
  refine ⟨?_, ?_, ?_, ?_, dispatch_shape r m⟩
  · rintro ⟨e, he⟩
    simp [dispatch, he]
  · intro raw fam hd hf hc
    simp [dispatch, hd, hf, hc]
  · intro raw fam cmd hd hf hc hv
    simp [dispatch, hd, hf, hc, hv]
  · intro raw fam cmd typed k hd hf hc hv hh
    simp [dispatch, hd, hf, hc, hv, hh]

/-- Claim C3 witness: the four per-message error paths exercised on
concrete inputs against the echo family. -/
theorem claim_C3_witness :
    dispatch echoRegistry ⟨"ECHO", 1, ⟨7, 42⟩, [5]⟩
      = buildErrorReply ⟨7, 42⟩ 1 .malformedStream
  ∧ dispatch echoRegistry ⟨"ECHO", 2, ⟨7, 42⟩, []⟩
      = buildErrorReply ⟨7, 42⟩ 2 .unknownCommand
  ∧ dispatch echoRegistry ⟨"ECHO", 1, ⟨7, 42⟩, [1, 0, 2, 0, 104, 105, 0, 0]⟩
      = buildErrorReply ⟨7, 42⟩ 1 .policyViolation
  ∧ dispatch echoRegistry ⟨"ECHO", 1, ⟨7, 42⟩, []⟩
      = buildErrorReply ⟨7, 42⟩ 1 (.handlerError 1) :=
  ⟨(claim_C3 echoRegistry ⟨"ECHO", 1, ⟨7, 42⟩, [5]⟩).1 ⟨.malformedStream, rfl⟩,
   (claim_C3 echoRegistry ⟨"ECHO", 2, ⟨7, 42⟩, []⟩).2.1 [] echoFamily rfl rfl rfl,
   (claim_C3 echoRegistry ⟨"ECHO", 1, ⟨7, 42⟩, [1, 0, 2, 0, 104, 105, 0, 0]⟩).2.2.1
     [⟨1, [104, 105]⟩] echoFamily ⟨1, echoHandler⟩ rfl rfl rfl rfl,
   (claim_C3 echoRegistry ⟨"ECHO", 1, ⟨7, 42⟩, []⟩).2.2.2.1
     [] echoFamily ⟨1, echoHandler⟩ [] 1 rfl rfl rfl rfl rfl⟩

/-- Claim C4: building a reply never fails — build_success and build_error
are total and assemble exactly the given origin, command and attributes —
and any reply-related failure surfaces only at the encoding layer, which
can only report AttributeTooLarge. -/
theorem claim_C4 :
    (∀ (o : OriginId) (c : Nat) (attrs : List (Nat × TypedValue)),
      buildSuccessReply o c attrs = ⟨o, c, .success attrs⟩)
  ∧ (∀ (o : OriginId) (c : Nat) (e : ErrKind),
      buildErrorReply o c e = ⟨o, c, .failure e⟩)
  ∧ (∀ (rep : Reply) (e : ErrKind), encodeReply rep = .error e →
      e = .attributeTooLarge) :=
  ⟨fun _ _ _ => rfl, fun _ _ _ => rfl,
   fun rep e h => encode_err_atl (replyAttrs rep.body) e h⟩

/-- Claim C4 witness: the builders applied at concrete inputs, and the
encoding of a reply holding an oversized attribute failing with
AttributeTooLarge and nothing else. -/
theorem claim_C4_witness :
    buildSuccessReply ⟨7, 42⟩ 1 [] = ⟨⟨7, 42⟩, 1, .success []⟩
  ∧ ErrKind.attributeTooLarge = ErrKind.attributeTooLarge :=
  ⟨claim_C4.1 ⟨7, 42⟩ 1 [],
   claim_C4.2.2 oversizedReply .attributeTooLarge (by
    have h : maxSlot < (payloadOf (TypedValue.str (List.replicate 70000 97))).length := by
      show maxSlot < (List.replicate 70000 (97 : Nat) ++ [0]).length
      rw [List.length_append, List.length_replicate]
      show 65535 < 70000 + 1
      omega
    show encode [(1, TypedValue.str (List.replicate 70000 97))]
      = .error .attributeTooLarge
    rw [encode, if_pos h])⟩

/-- Claim C5: validate fails with PolicyViolation exactly when some
present attribute has an index above max_index, an index marked NONE, or a
payload the declared type cannot interpret; for max_index 2 an attribute
with index 5 fails; the empty attribute set always validates, so absence
is never a PolicyViolation. -/
theorem claim_C5 (attrs : List Attr) (p : Policy) :
    ((∃ e, validate attrs p = .error e) ↔
      ∃ a ∈ attrs, (p.maxIndex < a.index ∨ p.typeOf a.index = AttrType.none ∨
        interp (p.typeOf a.index) a.raw = Option.none))
  ∧ (∀ e, validate attrs p = .error e → e = .policyViolation)
  ∧ validate [] p = .ok []
  ∧ validate [⟨5, []⟩] twoSlotPolicy = .error .policyViolation := by
  refine ⟨?_, fun e h => validate_err_pv attrs p e h, rfl, rfl⟩
  rw [validate_err_iff]
  constructor
  · rintro ⟨a, ha, hbad⟩
    exact ⟨a, ha, hbad.elim Or.inl (fun h2 => Or.inr (Or.inr h2))⟩
  · rintro ⟨a, ha, hbad⟩
    refine ⟨a, ha, ?_⟩
    rcases hbad with h2 | h2 | h2
    · exact Or.inl h2
    · refine Or.inr ?_
      rw [h2]
      rfl
    · exact Or.inr h2

/-- Claim C5 witness: the unknown-index scenario — max_index 2, attribute
index 5 — driven through the characterisation. -/
theorem claim_C5_witness :
    (∃ e, validate [⟨5, []⟩] twoSlotPolicy = .error e)
  ∧ ErrKind.policyViolation = ErrKind.policyViolation :=
  ⟨(claim_C5 [⟨5, []⟩] twoSlotPolicy).1.mpr
    ⟨⟨5, []⟩, by simp, Or.inl (by decide)⟩,
   (claim_C5 [⟨5, []⟩] twoSlotPolicy).2.1 .policyViolation rfl⟩

/-- Claim C6: registering a name already present fails with
DuplicateFamily, and after a successful unregister of that name a new
registration of the same name succeeds — names are unique at any instant
but reusable after a clean unregister. -/
theorem claim_C6 (r r₂ : Registry) (name : String) (f g : FamilyRecord)
    (h : register r name f = .ok r₂) :
    register r₂ name g = .error .duplicateFamily
  ∧ ∃ r₃, unregister r₂ name = .ok r₃ ∧
      ∃ r₄, register r₃ name g = .ok r₄ := by
  obtain ⟨rfl, hany⟩ := register_ok_shape r r₂ name f h
  refine ⟨by simp [register], ?_⟩
  refine ⟨((name, f) :: r).filter (fun e => !(e.1 == name)), by simp [unregister], ?_⟩
  exact ⟨(name, g) :: ((name, f) :: r).filter (fun e => !(e.1 == name)),
    by simp [register, any_filter_self]⟩

/-- Claim C6 witness: registering family "A" twice on an initially empty
registry, then unregistering and re-registering it. -/
theorem claim_C6_witness :
    register [("A", echoFamily)] "A" echoFamily = .error .duplicateFamily
  ∧ ∃ r₃, unregister [("A", echoFamily)] "A" = .ok r₃ ∧
      ∃ r₄, register r₃ "A" echoFamily = .ok r₄ :=
  claim_C6 [] [("A", echoFamily)] "A" echoFamily echoFamily rfl

/-- Claim C7: codec round-trip — for both attribute types and every valid
index and in-range value, encoding the single-attribute list and decoding
it back yields exactly that attribute, whose payload interprets back to
the original typed value. -/
theorem claim_C7 (i : Nat) (v : TypedValue) (_h1 : 1 ≤ i)
    (h2 : i ≤ maxWireIndex) (h3 : inRange v = true) :
    ∃ bs, encode [(i, v)] = .ok bs
      ∧ decode bs = .ok [⟨i, payloadOf v⟩]
      ∧ interp (typeOfVal v) (payloadOf v) = some v := by
  have hplen : (payloadOf v).length ≤ maxSlot := by
    cases v with
    | str s =>
      simp only [inRange, Bool.and_eq_true, decide_eq_true_eq] at h3
      simpa [payloadOf] using h3.1
    | u32 n => simp [payloadOf, maxSlot]
  refine ⟨encodeAttr i (payloadOf v), encode_single i v hplen, ?_, ?_⟩
  · exact decode_encodeAttr i _ h2 hplen
  · cases v with
    | str s =>
      simp [inRange] at h3
      exact interp_payload_str s h3.2
    | u32 n =>
      simp [inRange] at h3
      exact interp_payload_u32 n h3

/-- Claim C7 witness: round-trip of the single attribute (1, "hi") and of
the single attribute (2, U32 3000000000). -/
theorem claim_C7_witness :
    (∃ bs, encode [(1, TypedValue.str [104, 105])] = .ok bs
      ∧ decode bs = .ok [⟨1, payloadOf (TypedValue.str [104, 105])⟩]
      ∧ interp (typeOfVal (TypedValue.str [104, 105]))
          (payloadOf (TypedValue.str [104, 105]))
          = some (TypedValue.str [104, 105]))
  ∧ ∃ bs, encode [(2, TypedValue.u32 3000000000)] = .ok bs
      ∧ decode bs = .ok [⟨2, payloadOf (TypedValue.u32 3000000000)⟩]
      ∧ interp (typeOfVal (TypedValue.u32 3000000000))
          (payloadOf (TypedValue.u32 3000000000))
          = some (TypedValue.u32 3000000000) :=
  ⟨claim_C7 1 (TypedValue.str [104, 105]) (by decide) (by decide) (by decide),
   claim_C7 2 (TypedValue.u32 3000000000) (by decide) (by decide) (by decide)⟩

/-- Claim C8 counterexample: a buffer carrying the attribute at the
STRING-declared index 1 whose payload "hi" is not terminated within its
declared length decodes successfully instead of failing with
MalformedStream; the unterminated string is instead rejected by validate
with PolicyViolation. -/
theorem claim_C8_counterexample :
    echoPolicy.typeOf 1 = AttrType.string
  ∧ isWellFormedStr [104, 105] = false
  ∧ decode [1, 0, 2, 0, 104, 105, 0, 0] = .ok [⟨1, [104, 105]⟩]
  ∧ validate [⟨1, [104, 105]⟩] echoPolicy = .error .policyViolation :=
  ⟨rfl, rfl, rfl, rfl⟩

/-- Claim C8 as amended: decode fails with MalformedStream whenever a
record's length field claims more bytes than remain after its header; a
decoded index can never exceed the encoding's maximum representable index
(the 2-byte field bounds it by 65535); an unterminated string payload at a
STRING-declared index is rejected by validate with PolicyViolation rather
than by decode, since the wire records carry no type discriminator. -/
theorem claim_C8 :
    (∀ (b0 b1 b2 b3 : Nat) (rest : List Nat),
      rest.length < b2 % 256 + 256 * (b3 % 256) →
      decode (b0 :: b1 :: b2 :: b3 :: rest) = .error .malformedStream)
  ∧ (∀ (buf : List Nat) (attrs : List Attr), decode buf = .ok attrs →
      ∀ a ∈ attrs, a.index ≤ maxWireIndex)
  ∧ (∀ (attrs : List Attr) (p : Policy) (a : Attr), a ∈ attrs →
      p.typeOf a.index = AttrType.string → isWellFormedStr a.raw = false →
      validate attrs p = .error .policyViolation) := by
  refine ⟨decode_overrun, ?_, ?_⟩
  · intro buf attrs h a ha
    exact decodeAux_index_le buf.length buf attrs h a ha
  · intro attrs p a ha hstr hwf
    have hbad : interp (p.typeOf a.index) a.raw = Option.none := by
      rw [hstr]
      simp [interp, hwf]
    obtain ⟨e, he⟩ := (validate_err_iff attrs p).mpr ⟨a, ha, Or.inr hbad⟩
    have hpv := validate_err_pv attrs p e he
    rw [hpv] at he
    exact he

/-- Claim C8 witness: a record declaring length 100 with only 10 bytes
remaining fails decode with MalformedStream; the decoded index bound and
the validator rejection exercised on the unterminated "hi" buffer. -/
theorem claim_C8_witness :
    decode (1 :: 0 :: 100 :: 0 :: List.replicate 10 0)
      = .error .malformedStream
  ∧ (⟨1, [104, 105]⟩ : Attr).index ≤ maxWireIndex
  ∧ validate [⟨1, [104, 105]⟩] echoPolicy = .error .policyViolation :=
  ⟨claim_C8.1 1 0 100 0 (List.replicate 10 0) (by decide),
   claim_C8.2.1 [1, 0, 2, 0, 104, 105, 0, 0] [⟨1, [104, 105]⟩] rfl
     ⟨1, [104, 105]⟩ (by simp),
   claim_C8.2.2 [⟨1, [104, 105]⟩] echoPolicy ⟨1, [104, 105]⟩
     (by simp) rfl rfl⟩

/-- Claim C9: hello_world returns 0 on every execution path, including
every internal failure path; it logs exactly on the paths where no reply
is delivered, and a reply is delivered exactly when the info pointer is
present and every external call succeeds. -/
theorem claim_C9 (env : HelloEnv) :
    (helloWorld env).ret = 0
  ∧ (helloWorld env).logged = !(helloWorld env).replyDelivered
  ∧ (helloWorld env).replyDelivered =
      (env.infoPresent && env.allocOk && env.putReplyOk &&
        (env.nlaPutRc == 0) && (env.replyRc == 0)) := by
  obtain ⟨ip, ao, pro, np, rr⟩ := env
  cases ip <;> cases ao <;> cases pro <;>
    by_cases hnp : np = 0 <;> by_cases hrr : rr = 0 <;>
    simp_all [helloWorld]

/-- Claim C10: initialization is all-or-nothing for the registry — when
the module starts from a registry without its family and initialization
fails (either register step), the family is not present afterwards; in
particular, when registering the command operations fails after the
family was registered, exmpl_gnl_init unregisters the family and returns
-1. -/
theorem claim_C10 (r : Registry) (opsOk : Bool) :
    (lookupFamily r exmplGnlFamilyName = Option.none →
      (exmplGnlInit r opsOk).1 ≠ 0 →
      lookupFamily (exmplGnlInit r opsOk).2 exmplGnlFamilyName
        = Option.none)
  ∧ (∀ r₂, register r exmplGnlFamilyName exmplFamilyRecord = .ok r₂ →
      (exmplGnlInit r false).1 = -1 ∧
      lookupFamily (exmplGnlInit r false).2 exmplGnlFamilyName
        = Option.none) := by
  constructor
  · intro hlk hret
    have hany := (lookup_none_iff r exmplGnlFamilyName).mp hlk
    have hreg : register r exmplGnlFamilyName exmplFamilyRecord
        = .ok ((exmplGnlFamilyName, exmplFamilyRecord) :: r) := by
      simp [register, hany]
    cases opsOk with
    | true =>
      exfalso
      apply hret
      simp [exmplGnlInit, hreg]
    | false =>
      simp [exmplGnlInit, hreg, unregister, lookupFamily, find_filter_self]
  · intro r₂ hreg2
    obtain ⟨rfl, hany⟩ := register_ok_shape r r₂ exmplGnlFamilyName
      exmplFamilyRecord hreg2
    constructor
    · simp [exmplGnlInit, hreg2, unregister]
    · simp [exmplGnlInit, hreg2, unregister, lookupFamily, find_filter_self]

/-- Claim C10 witness: starting from the empty registry with the ops
registration failing, initialization fails and leaves the family
unregistered. -/
theorem claim_C10_witness :
    lookupFamily (exmplGnlInit [] false).2 exmplGnlFamilyName = Option.none
  ∧ ((exmplGnlInit [] false).1 = -1 ∧
      lookupFamily (exmplGnlInit [] false).2 exmplGnlFamilyName
        = Option.none) :=
  ⟨(claim_C10 [] false).1 rfl (by decide),
   (claim_C10 [] false).2 [(exmplGnlFamilyName, exmplFamilyRecord)] rfl⟩

end Genl
